import Mathlib

/-!
# Verification of the Qt5 GDB pretty-printer core (`qt5printers`)

Shallow embedding of the decoding logic of `core.py` and the type-classification
registry of `typeinfo.py`.  Python integers are modelled as `Int` (arbitrary
precision); Python floor division `//` and floor modulo `%` are `Int.fdiv` and
`Int.fmod`.  Memory-backed gdb values are modelled by explicit data (lists,
trees, functions) passed to the decoding functions; gdb type descriptors are
modelled by the `GdbType` structure.
-/

namespace Qt5Printers

/-- Python `'{:0=w}'.format(n)`: zero padding inserted after the sign,
to a minimum total width `w`. -/
def pad0 (w : Nat) (n : Int) : String :=
  let ds := toString n.natAbs
  if n < 0 then
    "-" ++ String.mk (List.replicate (w - 1 - ds.length) '0') ++ ds
  else
    String.mk (List.replicate (w - ds.length) '0') ++ ds

/-! ## Date and time decoding (`core.py` lines 55-83) -/

/-- `a = jd + 32044` of `_format_jd` (`core.py:58`).  The sequential local
assignments `a` … `m` of the source are split into one definition per
assignment (Python `//` = `Int.fdiv`). -/
def jd_a (jd : Int) : Int := jd + 32044

/-- `b = (4 * a + 3) // 146097` (`core.py:59`). -/
def jd_b (jd : Int) : Int := (4 * jd_a jd + 3).fdiv 146097

/-- `c = a - ((146097 * b) // 4)` (`core.py:60`). -/
def jd_c (jd : Int) : Int := jd_a jd - (146097 * jd_b jd).fdiv 4

/-- `d = (4 * c + 3) // 1461` (`core.py:61`). -/
def jd_d (jd : Int) : Int := (4 * jd_c jd + 3).fdiv 1461

/-- `e = c - ((1461 * d) // 4)` (`core.py:62`). -/
def jd_e (jd : Int) : Int := jd_c jd - (1461 * jd_d jd).fdiv 4

/-- `m = (5 * e + 2) // 153` (`core.py:63`). -/
def jd_m (jd : Int) : Int := (5 * jd_e jd + 2).fdiv 153

/-- `day = e - ((153 * m + 2) // 5) + 1` (`core.py:64`). -/
def jd_day (jd : Int) : Int := jd_e jd - (153 * jd_m jd + 2).fdiv 5 + 1

/-- `month = m + 3 - 12 * (m // 10)` (`core.py:65`). -/
def jd_month (jd : Int) : Int := jd_m jd + 3 - 12 * (jd_m jd).fdiv 10

/-- `year = 100 * b + d - 4800 + (m // 10)` (`core.py:66`). -/
def jd_year (jd : Int) : Int := 100 * jd_b jd + jd_d jd - 4800 + (jd_m jd).fdiv 10

/-- The (year, month, day) triple computed by `_format_jd` (`core.py:55`),
before string formatting. -/
def _format_jd_ymd (jd : Int) : Int × Int × Int :=
  (jd_year jd, jd_month jd, jd_day jd)

/-- `'{:0=4}-{:0=2}-{:0=2}'.format(year, month, day)` applied to the
triple of `_format_jd_ymd`: the full `_format_jd` (`core.py:55`). -/
def _format_jd (jd : Int) : String :=
  let ymd := _format_jd_ymd jd
  pad0 4 ymd.1 ++ "-" ++ pad0 2 ymd.2.1 ++ "-" ++ pad0 2 ymd.2.2

/-- `_jd_is_valid` (`core.py:69`). -/
def _jd_is_valid (jd : Int) : Bool :=
  decide (jd ≥ -784350574879 ∧ jd ≤ 784354017364)

/-- `QDatePrinter.to_string` (`core.py:216`): `jd = int(self.val['jd'])` is the
stored day count. -/
def qdate_to_string (jd : Int) : String :=
  if _jd_is_valid jd then _format_jd jd else "<invalid>"

/-- `_format_time_ms` (`core.py:73`). -/
def _format_time_ms (msecs : Int) : String :=
  let secs := msecs.fdiv 1000
  let mins := secs.fdiv 60
  let hours := mins.fdiv 60
  pad0 2 (hours.fmod 24) ++ ":" ++ pad0 2 (mins.fmod 60) ++ ":" ++
    pad0 2 (secs.fmod 60) ++ "." ++ pad0 3 (msecs.fmod 1000)

/-- `_ms_is_valid` (`core.py:81`). -/
def _ms_is_valid (msecs : Int) : Bool :=
  decide (msecs ≥ 0 ∧ msecs ≤ 86400000)

/-- `QTimePrinter.to_string` (`core.py:672`): `msecs = int(self.val['mds'])`. -/
def qtime_to_string (msecs : Int) : String :=
  if _ms_is_valid msecs then _format_time_ms msecs else "<invalid>"

/-! ## Type classification (`typeinfo.py`) -/

/-- The gdb type codes the printers test (`gdb.TYPE_CODE_*`). -/
inductive TypeCode where
  | ptr | int | flt | char | bool | enum | struct | union | other
deriving DecidableEq, Repr

/-- A gdb type descriptor as used by the classification functions:
its type code, its name (`""` models a `None` name), its size in bytes,
and its tag string (`""` models a `None` tag). -/
structure GdbType where
  code : TypeCode
  name : String
  sizeof : Nat
  tag : String
deriving DecidableEq, Repr

/-- The six classification name sets of `typeinfo.py`.  They are module-level
sets that users may extend, so the classification functions take the current
registry contents as a parameter; `defaultRegistry` holds the literal contents
shipped in `typeinfo.py`. -/
structure TypeRegistry where
  primitive_types : List String
  primitive_tpl_types : List String
  movable_types : List String
  movable_tpl_types : List String
  static_types : List String
  static_tpl_types : List String

/-- The literal registry contents of `typeinfo.py` (lines 53-190). -/
def defaultRegistry : TypeRegistry where
  primitive_types :=
    ["HB_FixedPoint", "HB_GlyphAttributes", "QCharAttributes", "QFlag",
     "QIncompatibleFlag", "QRegExpAnchorAlternation", "QRegExpAtom",
     "QRegExpCharClassRange", "QStaticPlugin", "QStringRef", "QTzType", "QUuid"]
  primitive_tpl_types := ["QFlags"]
  movable_types :=
    ["QBasicTimer", "QBitArray", "QByteArray", "QChar", "QCharRef",
     "QCustomTypeInfo", "QDate", "QDateTime", "QFileInfo", "QEasingCurve",
     "QFileSystemWatcherPathKey", "QHashDummyValue", "QItemSelectionRange",
     "QLatin1String", "QLine", "QLineF", "QLocale", "QLoggingRule", "QMargins",
     "QMarginsF", "QMetaClassInfo", "QMetaEnum", "QMetaMethod", "QMimeMagicRule",
     "QModelIndex", "QPersistentModelIndex", "QObjectPrivate::Connection",
     "QObjectPrivate::Sender", "QPoint", "QPointF", "QPostEvent", "QProcEnvKey",
     "QProcEnvValue", "QRect", "QRectF", "QRegExp", "QRegExpAutomatonState",
     "QRegExpCharClass", "QResourceRoot", "QSize", "QSizeF", "QString",
     "QStringList", "QTime", "QTimeZone::OffsetData", "QUrl", "QVariant",
     "QXmlStreamAttribute", "QXmlStreamEntityDeclaration",
     "QXmlStreamNamespaceDeclaration", "QXmlStreamNotationDeclaration"]
  movable_tpl_types :=
    ["QExplicitlySharedDataPointer", "QLinkedList", "QList", "QPointer",
     "QQueue", "QSet", "QSharedDataPointer", "QSharedPointer", "QStack",
     "QVector", "QWeakPointer"]
  static_types := []
  static_tpl_types := []

/-- Python `str.find(c)`: index of the first occurrence, `-1` if absent. -/
def pyFind (s : String) (c : Char) : Int :=
  match s.toList.findIdx? (fun x => x = c) with
  | some i => (i : Int)
  | none => -1

/-- Python `s[0:pos]` for a nonnegative character index. -/
def pyTake (s : String) (n : Int) : String :=
  String.mk (s.toList.take n.toNat)

/-- `type_is_known_primitive` (`typeinfo.py:192`): structurally primitive type
codes are always primitive; otherwise the name (template base name before the
first `<` when present) is looked up in the primitive name sets. -/
def type_is_known_primitive (reg : TypeRegistry) (typ : GdbType) : Bool :=
  if typ.code = .ptr ∨ typ.code = .int ∨ typ.code = .flt ∨ typ.code = .char ∨
      typ.code = .bool then
    true
  else
    let pos := pyFind typ.name '<'
    if pos > 0 then reg.primitive_tpl_types.contains (pyTake typ.name pos)
    else reg.primitive_types.contains typ.name

/-- `type_is_known_movable` (`typeinfo.py:202`). -/
def type_is_known_movable (reg : TypeRegistry) (typ : GdbType) : Bool :=
  if typ.name = "" then false
  else
    let pos := pyFind typ.name '<'
    if pos > 0 then reg.movable_tpl_types.contains (pyTake typ.name pos)
    else reg.movable_types.contains typ.name

/-- `type_is_known_static` (`typeinfo.py:212`). -/
def type_is_known_static (reg : TypeRegistry) (typ : GdbType) : Bool :=
  if typ.name = "" then false
  else
    let pos := pyFind typ.name '<'
    if pos > 0 then reg.static_tpl_types.contains (pyTake typ.name pos)
    else reg.static_types.contains typ.name

/-- The storage-mode classification of `QListPrinter.Iter.__init__`
(`core.py:492-502`): `.ok true` = elements stored by indirection
(`is_pointer = True`), `.ok false` = inline, `.error` = the `ValueError`
raised when no rule applies.  `ptrSize` is `gdb.lookup_type('void').pointer().sizeof`. -/
def qlistStorage (reg : TypeRegistry) (el_type : GdbType) (ptrSize : Nat) :
    Except String Bool :=
  if el_type.sizeof > ptrSize ∨ type_is_known_static reg el_type then
    .ok true
  else if type_is_known_movable reg el_type ∨ type_is_known_primitive reg el_type then
    .ok false
  else
    .error ("Could not determine whether QList stores " ++ el_type.name ++
      " directly or as a pointer: to fix " ++
      "this, add it to one of the variables in the " ++
      "qt5printers.typeinfo module")

/-! ## QLinkedList decoding (`core.py` lines 436-476) -/

/-- `QLinkedListPrinter.Iter` (`core.py:439`): starting from the sentinel
node `cur` and counter `i` (initially `-1`), each `__next__` stops as soon as
`i + 1 >= size`, otherwise increments `i`, advances `self.current` through the
`'n'` (next) reference and yields `(str(i), current['t'])`.  The chain is an
arbitrary function `nxt` on node references and `val` reads a node's element,
so the model covers every possible (even corrupt or cyclic) chain shape. -/
def llIterRun {α β : Type} (nxt : α → α) (val : α → β) (cur : α) (i size : Int) :
    List (String × β) :=
  if h : i + 1 ≥ size then []
  else
    (toString (i + 1), val (nxt cur)) :: llIterRun nxt val (nxt cur) (i + 1) size
termination_by (size - (i + 1)).toNat
decreasing_by omega

/-- `QLinkedListPrinter.children` (`core.py:461`): empty list when the header
size is 0, otherwise the iterator started at the sentinel `e` with `i = -1`. -/
def qlinkedlist_children {α β : Type} (nxt : α → α) (val : α → β) (e : α)
    (size : Int) : List (String × β) :=
  if size = 0 then [] else llIterRun nxt val e (-1) size

/-! ## Empty-container sentinels and QString decoding
(`core.py` lines 536-540, 651-664, 836-840) -/

/-- `QVectorPrinter.to_string` (`core.py:836`): `some` text when the printer
returns a string, `none` for Python `None` (children are rendered instead). -/
def qvector_to_string (size : Int) : Option String :=
  if size = 0 then some "<empty>" else none

/-- `QListPrinter.to_string` (`core.py:536`): compares `d['begin']` and
`d['end']`. -/
def qlist_to_string (begin_ end_ : Int) : Option String :=
  if begin_ = end_ then some "<empty>" else none

/-- The byte pairs of a UTF-16 (little-endian, as Python decodes BOM-less
`'utf-16'` data) stream as 16-bit code units; a trailing odd byte is replaced
(`errors='replace'`). -/
def utf16Units : List Nat → List Nat
  | [] => []
  | [_] => [0xFFFD]
  | b0 :: b1 :: rest => (b0 + 256 * b1) :: utf16Units rest

/-- UTF-16 code units to characters: surrogate pairs are combined, unpaired
surrogates are replaced (`errors='replace'`). -/
def utf16Chars : List Nat → List Char
  | [] => []
  | [u] =>
    if 0xD800 ≤ u ∧ u < 0xE000 then [Char.ofNat 0xFFFD] else [Char.ofNat u]
  | u1 :: u2 :: rest =>
    if 0xD800 ≤ u1 ∧ u1 < 0xDC00 then
      if 0xDC00 ≤ u2 ∧ u2 < 0xE000 then
        Char.ofNat (0x10000 + (u1 - 0xD800) * 0x400 + (u2 - 0xDC00)) ::
          utf16Chars rest
      else Char.ofNat 0xFFFD :: utf16Chars (u2 :: rest)
    else if 0xDC00 ≤ u1 ∧ u1 < 0xE000 then
      Char.ofNat 0xFFFD :: utf16Chars (u2 :: rest)
    else Char.ofNat u1 :: utf16Chars (u2 :: rest)

/-- `QStringPrinter.to_string` (`core.py:657`): reads
`d['size'] * sizeof(unsigned short)` bytes at the data offset and decodes them
as UTF-16 with replacement; `bytes` is the memory at `d + d['offset']`.
Note there is no empty-size check in the source: a size of 0 decodes zero
bytes. -/
def qstring_to_string (bytes : List Nat) (size : Int) : String :=
  String.mk (utf16Chars (utf16Units (bytes.take (size * 2).toNat)))

/-! ## QHash and QSet decoding (`core.py` lines 327-390, 630-649) -/

/-- `QHashPrinter.Iter` (`core.py:330`) modelled at the bucket level: the hash
is the list of its buckets, each bucket the list of `(key, value)` nodes on
its chain (the dummy terminator node, the synthetic pre-first "dummy bucket"
cursor and the `waiting_for_value` flag of the pointer-level walk are implicit
in this presentation).  Each node yields `('key<i>', key)` then
`('value<i>', value)`; exhausted chains skip to the next non-empty bucket;
`i` is `-1` before the first yield, so the first node is labelled `0`. -/
def qhashIterYields {α β : Type} (i : Int) :
    List (List (α × β)) → List (String × (α ⊕ β))
  | [] => []
  | [] :: bs => qhashIterYields i bs
  | ((k, v) :: rest) :: bs =>
      ("key" ++ toString i, Sum.inl k) :: ("value" ++ toString i, Sum.inr v) ::
        qhashIterYields (i + 1) (rest :: bs)
termination_by bs => bs.length + 2 * (bs.map List.length).sum
decreasing_by
  all_goals
    simp only [List.map_cons, List.sum_cons, List.length_cons, List.length]
  all_goals omega

/-- `QHashPrinter.children` (`core.py:375`): empty when `d['size'] == 0`,
otherwise the iterator from the start. -/
def qhash_children {α β : Type} (buckets : List (List (α × β))) (size : Int) :
    List (String × (α ⊕ β)) :=
  if size = 0 then [] else qhashIterYields 0 buckets

/-- `itertools.islice(it, 0, None, 2)` materialised on a list: items at
positions 0, 2, 4, …. -/
def islice2 {γ : Type} : List γ → List γ
  | [] => []
  | [x] => [x]
  | x :: _ :: rest => x :: islice2 rest

/-- `QSetPrinter.children` (`core.py:636`): every other item (starting with
the first) of the backing hash's children. -/
def qset_children {α β : Type} (buckets : List (List (α × β))) (size : Int) :
    List (String × (α ⊕ β)) :=
  islice2 (qhash_children buckets size)

/-- Spec-side definition ("the subsequence of items at even positions"):
the elements of `l` whose index is even, in order. -/
def evenIdx {γ : Type} (l : List γ) : List γ :=
  l.enum.filterMap (fun p => if p.1 % 2 = 0 then some p.2 else none)

/-! ## QVariant decoding (`core.py` lines 722-792, `typeinfo.py` lines 222-375) -/

/-- `QVariantPrinter._varmap` (`core.py:725`). -/
def _varmap : List (String × String) :=
  [("char", "c"), ("uchar", "uc"), ("short", "s"), ("signed char", "sc"),
   ("ushort", "us"), ("int", "i"), ("uint", "u"), ("long", "l"),
   ("ulong", "ul"), ("bool", "b"), ("double", "d"), ("float", "f"),
   ("qreal", "real"), ("qlonglong", "ll"), ("qulonglong", "ull"),
   ("QObject*", "o"), ("void*", "ptr")]

/-- `typeinfo.meta_type_unknown` (`typeinfo.py:222`). -/
def meta_type_unknown : Nat := 0

/-- `typeinfo.meta_type_user` (`typeinfo.py:224`). -/
def meta_type_user : Nat := 1024

/-- `typeinfo.meta_type_names` (`typeinfo.py:301`): the full built-in
tag → type-name table. -/
def meta_type_names : List (Nat × String) :=
  [(1, "bool"), (2, "int"), (3, "uint"), (4, "qlonglong"), (5, "qulonglong"),
   (6, "double"), (7, "QChar"), (8, "QVariantMap"), (9, "QVariantList"),
   (10, "QString"), (11, "QStringList"), (12, "QByteArray"), (13, "QBitArray"),
   (14, "QDate"), (15, "QTime"), (16, "QDateTime"), (17, "QUrl"),
   (18, "QLocale"), (19, "QRect"), (20, "QRectF"), (21, "QSize"),
   (22, "QSizeF"), (23, "QLine"), (24, "QLineF"), (25, "QPoint"),
   (26, "QPointF"), (27, "QRegExp"), (28, "QVariantHash"), (29, "QEasingCurve"),
   (30, "QUuid"), (31, "void*"), (32, "long"), (33, "short"), (34, "char"),
   (35, "ulong"), (36, "ushort"), (37, "uchar"), (38, "float"),
   (39, "QObject*"), (40, "signed char"), (41, "QVariant"), (42, "QModelIndex"),
   (43, "void"), (44, "QRegularExpression"), (45, "QJsonValue"),
   (46, "QJsonObject"), (47, "QJsonArray"), (48, "QJsonDocument"),
   (64, "QFont"), (65, "QPixmap"), (66, "QBrush"), (67, "QColor"),
   (68, "QPalette"), (69, "QIcon"), (70, "QImage"), (71, "QPolygon"),
   (72, "QRegion"), (73, "QBitmap"), (74, "QCursor"), (75, "QKeySequence"),
   (76, "QPen"), (77, "QTextLength"), (78, "QTextFormat"), (79, "QMatrix"),
   (80, "QTransform"), (81, "QMatrix4x4"), (82, "QVector2D"), (83, "QVector3D"),
   (84, "QVector4D"), (85, "QQuaternion"), (86, "QPolygonF"),
   (121, "QSizePolicy")]

/-- The possible outcomes of `QVariantPrinter.to_string` (`core.py:748`),
abstracting the gdb value that would be returned: a plain string, a direct
union-field read, the raw untyped payload, a best-effort object cast, an
indirect read through the shared pointer, or an inline reinterpretation of
the payload bytes. -/
inductive VariantRes where
  | text (s : String)
  | fieldVal (field : String)
  | rawData
  | objCast (typename : String)
  | indirect (typename : String)
  | inlineVal (typename : String)
deriving DecidableEq, Repr

/-- `QVariantPrinter.to_string` (`core.py:748`): `typ` is `int(d['type'])`,
`resolve` models `gdb.lookup_type` (`none` = `gdb.error`), `ptrSize` the
pointer size (for `lookup_type(...).pointer()`), `dataSize` the size of the
`data` union. -/
def qvariant_to_string (reg : TypeRegistry) (resolve : String → Option GdbType)
    (ptrSize dataSize : Nat) (typ : Nat) : VariantRes :=
  if typ = meta_type_unknown then .text "<invalid type>"
  else
    match meta_type_names.find? (fun p => p.1 == typ) with
    | none => .rawData
    | some (_, typename) =>
      match _varmap.find? (fun p => p.1 == typename) with
      | some (_, field) => .fieldVal field
      | none =>
        let gdb_type? :=
          if typename.endsWith "*" then
            (resolve (typename.dropRight 1)).map
              (fun _ => (⟨.ptr, typename, ptrSize, ""⟩ : GdbType))
          else resolve typename
        match gdb_type? with
        | none => .rawData
        | some gdb_type =>
          if gdb_type.sizeof > dataSize then .indirect typename
          else if type_is_known_movable reg gdb_type ∨
              type_is_known_primitive reg gdb_type then .inlineVal typename
          else if gdb_type.tag = "enum" then .inlineVal typename
          else .objCast typename

/-! ## QMap decoding (`core.py` lines 545-628)

`QMapPrinter.Iter` walks the map's binary search tree iteratively, keeping
the ancestor chain in `self.path`.  A well-formed QMap heap is a tree of
nodes with distinct addresses reached from the sentinel header whose `left`
child is the root node and whose `right` child is null; the Python pointer
comparisons (`current['right'] == last`) therefore coincide with "`last` is
the right child of its parent", which the zipper frames below record
directly.  `MapFrame.H` is the header frame pushed by the initial descent. -/

/-- A QMap node tree: each node holds a key, a value and two children. -/
inductive QMapTree (α β : Type) where
  | leaf
  | node (l : QMapTree α β) (k : α) (v : β) (r : QMapTree α β)
deriving DecidableEq, Repr

/-- One entry of `self.path`: the ancestor node minus the side we descended
into (`L`: we went to its left child, keeping its key/value and right
subtree; `R`: we went to its right child, keeping its left subtree and
key/value; `H`: the sentinel header). -/
inductive MapFrame (α β : Type) where
  | L (k : α) (v : β) (r : QMapTree α β)
  | R (l : QMapTree α β) (k : α) (v : β)
  | H
deriving DecidableEq, Repr

/-- The `while current['left']: path.append(current); current = current['left']`
loops of `moveToNextNode` (`core.py:569` and `core.py:575`). -/
def descendLeft {α β : Type} :
    QMapTree α β → List (MapFrame α β) → QMapTree α β × List (MapFrame α β)
  | .leaf, ctx => (.leaf, ctx)
  | .node .leaf k v r, ctx => (.node .leaf k v r, ctx)
  | .node (.node a k2 v2 b) k v r, ctx =>
      descendLeft (.node a k2 v2 b) (.L k v r :: ctx)

/-- The backtracking branch of `moveToNextNode` (`core.py:578-586`):
`current = path.pop()` repeated while `current['right'] == last`, i.e. while
the frame is an `R` frame; an `L` frame is the next in-order node; popping
the header frame means the stack is exhausted at the root (end of
traversal).  Popping an empty path (impossible for states reached by the
iterator, which keeps `H` at the bottom) also ends the traversal. -/
def popUp {α β : Type} :
    List (MapFrame α β) → QMapTree α β →
      Option (QMapTree α β × List (MapFrame α β))
  | [], _ => none
  | .H :: _, _ => none
  | .R l k v :: ctx, last => popUp ctx (.node l k v last)
  | .L k v r :: ctx, last => some (.node last k v r, ctx)

/-- `QMapPrinter.Iter.moveToNextNode` (`core.py:563`): from no current node,
descend leftward from the header's left child (pushing the header frame);
from a node with a right child, descend into it and then leftward; otherwise
backtrack through the path.  `root` is the header's left child. -/
def moveToNextNode {α β : Type} (root : QMapTree α β) :
    Option (QMapTree α β) × List (MapFrame α β) →
      Option (QMapTree α β × List (MapFrame α β))
  | (none, _) =>
    match root with
    | .leaf => none
    | .node l k v r => some (descendLeft (.node l k v r) [.H])
  | (some .leaf, _) => none
  | (some (.node l k v (.node rl rk rv rr)), ctx) =>
      some (descendLeft (.node rl rk rv rr) (.R l k v :: ctx))
  | (some (.node l k v .leaf), ctx) => popUp ctx (.node l k v .leaf)

/-- The mutable state of `QMapPrinter.Iter` (`core.py:548`): current node,
ancestor path, the key/value alternation flag, the node data cached by
`reinterpret_cast` at key time (`self.current_typed`), and the pair
counter `i` (starts at `-1`). -/
structure QMapIterState (α β : Type) where
  cur : Option (QMapTree α β)
  ctx : List (MapFrame α β)
  next_is_key : Bool
  current_typed : Option (α × β)
  i : Int
deriving DecidableEq, Repr

/-- `QMapPrinter.Iter.__next__` (`core.py:589`): on a key step, advance to
the next node and yield `('key<i>', key)`; on a value step, yield
`('value<i>', value)` from the cached node without advancing. -/
def qmapNext {α β : Type} (root : QMapTree α β) (s : QMapIterState α β) :
    Option ((String × (α ⊕ β)) × QMapIterState α β) :=
  if s.next_is_key then
    match moveToNextNode root (s.cur, s.ctx) with
    | none => none
    | some (cur, ctx) =>
      match cur with
      | .node _ k v _ =>
          some (("key" ++ toString (s.i + 1), Sum.inl k),
            ⟨some cur, ctx, false, some (k, v), s.i + 1⟩)
      | .leaf => none
  else
    match s.current_typed with
    | some (_, v) =>
        some (("value" ++ toString s.i, Sum.inr v),
          { s with next_is_key := true })
    | none => none

/-- Running the iterator to exhaustion, fuelled (the iterator itself stops
via `StopIteration`; with fuel at least twice the node count the full yield
sequence is produced). -/
def qmapRun {α β : Type} (root : QMapTree α β) :
    Nat → QMapIterState α β → List (String × (α ⊕ β))
  | 0, _ => []
  | fuel + 1, s =>
    match qmapNext root s with
    | none => []
    | some (out, s2) => out :: qmapRun root fuel s2

/-- The iterator's initial state (`core.py:549-558`). -/
def qmapInitState {α β : Type} : QMapIterState α β :=
  ⟨none, [], true, none, -1⟩

/-- Spec-side: in-order key/value list of the tree. -/
def inorder {α β : Type} : QMapTree α β → List (α × β)
  | .leaf => []
  | .node l k v r => inorder l ++ (k, v) :: inorder r

/-- Spec-side: the strict key/value/key/value alternation of a node list,
with labels `key<i>`/`value<i>`. -/
def labelKV {α β : Type} : Int → List (α × β) → List (String × (α ⊕ β))
  | _, [] => []
  | i, (k, v) :: rest =>
      ("key" ++ toString i, Sum.inl k) :: ("value" ++ toString i, Sum.inr v) ::
        labelKV (i + 1) rest

/-- The in-order nodes still to be visited once the backtracking reaches a
given path suffix. -/
def ctxRem {α β : Type} : List (MapFrame α β) → List (α × β)
  | [] => []
  | .L k v r :: c => (k, v) :: (inorder r ++ ctxRem c)
  | .R _ _ _ :: c => ctxRem c
  | .H :: _ => []

/-- The in-order nodes still to be visited from an iterator position
(current node already yielded). -/
def pending {α β : Type} (root : QMapTree α β) :
    Option (QMapTree α β) × List (MapFrame α β) → List (α × β)
  | (none, _) => inorder root
  | (some .leaf, _) => []
  | (some (.node _ _ _ r), ctx) => inorder r ++ ctxRem ctx

/-! ## QUrl decoding (`core.py` lines 845-916) -/

/-- `QUrlPrinter.to_string` (`core.py:851`): the private fields read by the
struct reader are passed in directly (`dNull` models a null `d` pointer;
`scheme` … `fragment` are the rendered `QString` fields, `qs_to_s` applied).
The `password` field is read by the source but never rendered; bit 0x04 of
`sections` marks a present password, 0x40 a query, 0x80 a fragment, and bit
0x01 of `flags` marks a local file. -/
def qurl_to_string (dNull : Bool) (port : Int)
    (scheme userName password host path query fragment : String)
    (sections flags : Nat) : String :=
  if dNull then "<empty>"
  else if flags.land 0x01 ≠ 0 ∧ sections.land 0x40 = 0 ∧ sections.land 0x80 = 0 then
    path
  else
    (if sections.land 0x01 ≠ 0 then scheme ++ ":" else "") ++
    (if sections.land (0x02 ||| 0x04 ||| 0x08 ||| 0x10) ≠ 0 ∨
        flags.land 0x01 ≠ 0 then "//" else "") ++
    (if sections.land 0x02 ≠ 0 ∨ sections.land 0x04 ≠ 0 then
      userName ++ (if sections.land 0x04 ≠ 0 then ":<omitted>" else "") ++ "@"
    else "") ++
    (if sections.land 0x08 ≠ 0 then host else "") ++
    (if port ≠ -1 then ":" ++ toString port else "") ++
    path ++
    (if sections.land 0x40 ≠ 0 then "?" ++ query else "") ++
    (if sections.land 0x80 ≠ 0 then "#" ++ fragment else "")

/-- Modelled from the spec: the Gregorian (year, month, day) → day-count
encoder of the round-trip property ("encoding a Gregorian (year, month, day)
to a day-count"); the encoder is not part of `src/`, only the decoder
`_format_jd` is.  This is the standard closed-form Gregorian → Julian-day
transform referenced by the source's comment
(http://www.tondering.dk/claus/cal/julperiod.php), in integer floor
arithmetic. -/
def gregorianToJd (year month day : Int) : Int :=
  let a := (14 - month).fdiv 12
  let y := year + 4800 - a
  let m := month + 12 * a - 3
  day + (153 * m + 2).fdiv 5 + 365 * y + y.fdiv 4 - y.fdiv 100 + y.fdiv 400 - 32045

/-- Modelled from the spec: Gregorian leap-year rule, used to state which
(year, month, day) triples are genuine Gregorian dates. -/
def isLeapYear (y : Int) : Bool :=
  decide ((y % 4 = 0 ∧ y % 100 ≠ 0) ∨ y % 400 = 0)

/-- Modelled from the spec: days in a Gregorian month. -/
def daysInMonth (y m : Int) : Int :=
  if m = 2 then (if isLeapYear y then 29 else 28)
  else if m = 4 ∨ m = 6 ∨ m = 9 ∨ m = 11 then 30
  else 31

/-- Modelled from the spec: a genuine Gregorian (year, month, day) triple. -/
def ValidDate (y m d : Int) : Prop :=
  1 ≤ m ∧ m ≤ 12 ∧ 1 ≤ d ∧ d ≤ daysInMonth y m

instance (y m d : Int) : Decidable (ValidDate y m d) := by
  unfold ValidDate; infer_instance

end Qt5Printers

namespace Qt5Printers

/-- Python floor division by the positive constants of the date code is
Euclidean division. -/
theorem fdiv_pos_eq (a b : Int) (hb : 0 ≤ b) : a.fdiv b = a / b :=
  Int.fdiv_eq_ediv a hb

/-- The decoder stages `b`, `d`, `e` of `_format_jd` invert the canonical
"shifted-year / day-of-year" form of the Julian day count: for
`jd + 32044 = 365 Y + Y/4 - Y/100 + Y/400 + doy` with `0 ≤ doy ≤ 365` (and
`doy = 365` only in a leap shifted year), `100 b + d` recovers `Y` and `e`
recovers `doy`. -/
theorem jd_decode_core (jd Y doy : Int)
    (hjd : jd + 32044 = 365 * Y + Y / 4 - Y / 100 + Y / 400 + doy)
    (h0 : 0 ≤ doy) (h1 : doy ≤ 365)
    (hl : doy = 365 → Y % 4 = 3 ∧ (Y % 100 = 99 → Y % 400 = 399)) :
    100 * jd_b jd + jd_d jd = Y ∧ jd_e jd = doy := by
  have ha : jd_a jd = 365 * Y + Y / 4 - Y / 100 + Y / 400 + doy := by
    simp only [jd_a]; omega
  have hbdef : jd_b jd = (4 * jd_a jd + 3) / 146097 := by
    simp only [jd_b, fdiv_pos_eq _ _ (by norm_num : (0:Int) ≤ 146097)]
  have hcdef : jd_c jd = jd_a jd - (146097 * jd_b jd) / 4 := by
    simp only [jd_c, fdiv_pos_eq _ _ (by norm_num : (0:Int) ≤ 4)]
  have hddef : jd_d jd = (4 * jd_c jd + 3) / 1461 := by
    simp only [jd_d, fdiv_pos_eq _ _ (by norm_num : (0:Int) ≤ 1461)]
  have hedef : jd_e jd = jd_c jd - (1461 * jd_d jd) / 4 := by
    simp only [jd_e, fdiv_pos_eq _ _ (by norm_num : (0:Int) ≤ 4)]
  obtain ⟨C, R, hY, hR0, hR1⟩ : ∃ C R, Y = 100 * C + R ∧ 0 ≤ R ∧ R < 100 :=
    ⟨Y / 100, Y % 100, by omega, by omega, by omega⟩
  obtain ⟨q, c0, hC, hc0a, hc0b⟩ : ∃ q c0, C = 4 * q + c0 ∧ 0 ≤ c0 ∧ c0 < 4 :=
    ⟨C / 4, C % 4, by omega, by omega, by omega⟩
  obtain ⟨r, r0, hRr, hr0a, hr0b⟩ : ∃ r r0, R = 4 * r + r0 ∧ 0 ≤ r0 ∧ r0 < 4 :=
    ⟨R / 4, R % 4, by omega, by omega, by omega⟩
  have hY4 : Y / 4 = 25 * C + r := by omega
  have hY100 : Y / 100 = C := by omega
  have hY400 : Y / 400 = q := by omega
  have ha2 : jd_a jd = 146097 * q + 36524 * c0 + (365 * R + r + doy) := by
    omega
  have hS1 : 365 * R + r + doy ≤ 36524 := by omega
  have hSb : 365 * R + r + doy = 36524 → c0 = 3 ∧ r0 = 3 := by
    intro hS
    have hdoy : doy = 365 := by omega
    obtain ⟨h4', h100'⟩ := hl hdoy
    have hm100 : Y % 100 = 99 := by omega
    have h400 := h100' hm100
    constructor <;> omega
  have hb : jd_b jd = 4 * q + c0 := by
    rw [hbdef, ha2]
    by_cases hS : 365 * R + r + doy = 36524
    · obtain ⟨hc3, hr3⟩ := hSb hS
      omega
    · omega
  have hc : jd_c jd = 365 * R + r + doy := by
    rw [hcdef, ha2, hb]
    omega
  have hd : jd_d jd = R := by
    rw [hddef, hc]
    by_cases hdoy : doy = 365
    · obtain ⟨h4', _⟩ := hl hdoy
      omega
    · omega
  have he : jd_e jd = doy := by
    rw [hedef, hc, hd]
    omega
  exact ⟨by omega, he⟩

/-- One month of the round trip: with the month constants (`a'` from the
encoder's first line, the March-based month index `mm`, its day-of-year
offset `moff`) supplied together with the month-specific day bounds, the
decoder stages reproduce (year, month, day). -/
theorem jd_case (y d mo a' mm moff : Int)
    (hmo : 1 ≤ mo ∧ mo ≤ 12)
    (haa : a' = 0 ∨ a' = 1)
    (ha' : (14 - mo).fdiv 12 = a')
    (hmm : mo + 12 * a' - 3 = mm)
    (hmoff : (153 * mm + 2).fdiv 5 = moff)
    (hmm0 : 0 ≤ mm) (hmm1 : mm ≤ 11)
    (hd1 : 1 ≤ d)
    (hdoyub : moff + d - 1 ≤ 365)
    (hl : moff + d - 1 = 365 → (y + 4800 - a') % 4 = 3 ∧
      ((y + 4800 - a') % 100 = 99 → (y + 4800 - a') % 400 = 399))
    (hmrange : (5 * (moff + d - 1) + 2) / 153 = mm) :
    _format_jd_ymd (gregorianToJd y mo d) = (y, mo, d) := by
  have hmoff' : (153 * mm + 2) / 5 = moff := by
    rw [← hmoff, fdiv_pos_eq _ _ (by norm_num)]
  have hjd : gregorianToJd y mo d + 32044 =
      365 * (y + 4800 - a') + (y + 4800 - a') / 4 - (y + 4800 - a') / 100 +
        (y + 4800 - a') / 400 + (moff + d - 1) := by
    simp only [gregorianToJd]
    rw [ha', hmm, hmoff,
      fdiv_pos_eq (y + 4800 - a') 4 (by norm_num),
      fdiv_pos_eq (y + 4800 - a') 100 (by norm_num),
      fdiv_pos_eq (y + 4800 - a') 400 (by norm_num)]
    omega
  obtain ⟨hbd, he⟩ := jd_decode_core (gregorianToJd y mo d) (y + 4800 - a')
    (moff + d - 1) hjd (by omega) hdoyub hl
  have hmv : jd_m (gregorianToJd y mo d) = mm := by
    simp only [jd_m]
    rw [fdiv_pos_eq _ _ (by norm_num : (0:Int) ≤ 153), he]
    exact hmrange
  simp only [_format_jd_ymd, jd_year, jd_month, jd_day, Prod.mk.injEq]
  rw [hmv, fdiv_pos_eq mm 10 (by norm_num),
    fdiv_pos_eq (153 * mm + 2) 5 (by norm_num)]
  refine ⟨by omega, by omega, by omega⟩

/-- The closed-form decoder is a left inverse of the Gregorian → day-count
encoder on genuine Gregorian dates: decoding the encoded day count
reproduces the (year, month, day) triple. -/
theorem jd_roundtrip_ymd (y mo d : Int) (h : ValidDate y mo d) :
    _format_jd_ymd (gregorianToJd y mo d) = (y, mo, d) := by
  obtain ⟨h1, h2, h3, h4⟩ := h
  interval_cases mo
  · -- January: a' = 1, mm = 10, moff = 306, 31 days
    norm_num [daysInMonth] at h4
    exact jd_case y d 1 1 10 306 (by norm_num) (Or.inr rfl) (by decide)
      (by norm_num) (by decide) (by norm_num) (by norm_num) h3
      (by omega) (by omega) (by omega)
  · -- February: a' = 1, mm = 11, moff = 337, 28/29 days
    norm_num [daysInMonth] at h4
    have h4' : d ≤ 29 := by
      by_cases hly : isLeapYear y <;> simp [hly] at h4 <;> omega
    refine jd_case y d 2 1 11 337 (by norm_num) (Or.inr rfl) (by decide)
      (by norm_num) (by decide) (by norm_num) (by norm_num) h3
      (by omega) ?_ (by omega)
    intro hdoy
    have hd29 : d = 29 := by omega
    have hlp : ((y % 4 = 0 ∧ y % 100 ≠ 0) ∨ y % 400 = 0) := by
      by_cases hly : isLeapYear y
      · simpa [isLeapYear] using hly
      · simp [hly] at h4
        omega
    constructor
    · omega
    · intro h99
      omega
  · -- March: a' = 0, mm = 0, moff = 0, 31 days
    norm_num [daysInMonth] at h4
    exact jd_case y d 3 0 0 0 (by norm_num) (Or.inl rfl) (by decide)
      (by norm_num) (by decide) (by norm_num) (by norm_num) h3
      (by omega) (by omega) (by omega)
  · -- April: mm = 1, moff = 31, 30 days
    norm_num [daysInMonth] at h4
    exact jd_case y d 4 0 1 31 (by norm_num) (Or.inl rfl) (by decide)
      (by norm_num) (by decide) (by norm_num) (by norm_num) h3
      (by omega) (by omega) (by omega)
  · -- May: mm = 2, moff = 61, 31 days
    norm_num [daysInMonth] at h4
    exact jd_case y d 5 0 2 61 (by norm_num) (Or.inl rfl) (by decide)
      (by norm_num) (by decide) (by norm_num) (by norm_num) h3
      (by omega) (by omega) (by omega)
  · -- June: mm = 3, moff = 92, 30 days
    norm_num [daysInMonth] at h4
    exact jd_case y d 6 0 3 92 (by norm_num) (Or.inl rfl) (by decide)
      (by norm_num) (by decide) (by norm_num) (by norm_num) h3
      (by omega) (by omega) (by omega)
  · -- July: mm = 4, moff = 122, 31 days
    norm_num [daysInMonth] at h4
    exact jd_case y d 7 0 4 122 (by norm_num) (Or.inl rfl) (by decide)
      (by norm_num) (by decide) (by norm_num) (by norm_num) h3
      (by omega) (by omega) (by omega)
  · -- August: mm = 5, moff = 153, 31 days
    norm_num [daysInMonth] at h4
    exact jd_case y d 8 0 5 153 (by norm_num) (Or.inl rfl) (by decide)
      (by norm_num) (by decide) (by norm_num) (by norm_num) h3
      (by omega) (by omega) (by omega)
  · -- September: mm = 6, moff = 184, 30 days
    norm_num [daysInMonth] at h4
    exact jd_case y d 9 0 6 184 (by norm_num) (Or.inl rfl) (by decide)
      (by norm_num) (by decide) (by norm_num) (by norm_num) h3
      (by omega) (by omega) (by omega)
  · -- October: mm = 7, moff = 214, 31 days
    norm_num [daysInMonth] at h4
    exact jd_case y d 10 0 7 214 (by norm_num) (Or.inl rfl) (by decide)
      (by norm_num) (by decide) (by norm_num) (by norm_num) h3
      (by omega) (by omega) (by omega)
  · -- November: mm = 8, moff = 245, 30 days
    norm_num [daysInMonth] at h4
    exact jd_case y d 11 0 8 245 (by norm_num) (Or.inl rfl) (by decide)
      (by norm_num) (by decide) (by norm_num) (by norm_num) h3
      (by omega) (by omega) (by omega)
  · -- December: mm = 9, moff = 275, 31 days
    norm_num [daysInMonth] at h4
    exact jd_case y d 12 0 9 275 (by norm_num) (Or.inl rfl) (by decide)
      (by norm_num) (by decide) (by norm_num) (by norm_num) h3
      (by omega) (by omega) (by omega)

/-- C2: for every Gregorian (year, month, day) whose day-count encoding lies
in the valid range, QDate decoding of that day count reproduces exactly the
original date rendered as `YYYY-MM-DD`; day-count `2440588` decodes to
`1970-01-01`; and every day-count outside the valid range renders the
literal sentinel `<invalid>` (never a malformed date string). -/
theorem qdate_decode_roundtrip :
    (∀ y mo d : Int, ValidDate y mo d →
      _jd_is_valid (gregorianToJd y mo d) = true →
      qdate_to_string (gregorianToJd y mo d) =
        pad0 4 y ++ "-" ++ pad0 2 mo ++ "-" ++ pad0 2 d) ∧
    qdate_to_string 2440588 = "1970-01-01" ∧
    (∀ jd : Int, _jd_is_valid jd = false → qdate_to_string jd = "<invalid>") := by
  refine ⟨?_, by decide, ?_⟩
  · intro y mo d hv hval
    unfold qdate_to_string
    rw [hval]
    simp only [if_true, _format_jd, jd_roundtrip_ymd y mo d hv]
  · intro jd h
    unfold qdate_to_string
    rw [h]
    simp

/-- C2 witness: the theorem applied at 1970-01-01 (whose day count is the
in-range 2440588) and at the first out-of-range day count. -/
theorem qdate_decode_roundtrip_witness :
    qdate_to_string (gregorianToJd 1970 1 1) =
      pad0 4 1970 ++ "-" ++ pad0 2 1 ++ "-" ++ pad0 2 1 ∧
    qdate_to_string 784354017365 = "<invalid>" :=
  ⟨qdate_decode_roundtrip.1 1970 1 1 (by decide) (by decide),
   qdate_decode_roundtrip.2.2 784354017365 (by decide)⟩

/-- C1: QList storage-mode classification: if the element type's size exceeds
the native pointer size OR it is registered static, elements are decoded by
indirection; else if it is registered movable or structurally primitive,
elements are decoded inline; the size rule dominates (a movable type larger
than a pointer is still decoded by indirection); and if no rule applies the
decoder raises an explicit error whose message names the offending element
type. -/
theorem qlist_storage_mode (reg : TypeRegistry) (t : GdbType) (p : Nat) :
    (t.sizeof > p ∨ type_is_known_static reg t = true →
      qlistStorage reg t p = .ok true) ∧
    (t.sizeof ≤ p → type_is_known_static reg t = false →
      type_is_known_movable reg t = true ∨ type_is_known_primitive reg t = true →
      qlistStorage reg t p = .ok false) ∧
    (type_is_known_movable reg t = true → t.sizeof > p →
      qlistStorage reg t p = .ok true) ∧
    (t.sizeof ≤ p → type_is_known_static reg t = false →
      type_is_known_movable reg t = false → type_is_known_primitive reg t = false →
      ∃ msg, qlistStorage reg t p = .error msg ∧
        List.IsInfix t.name.toList msg.toList) := by
  refine ⟨?_, ?_, ?_, ?_⟩
  · intro h
    simp only [qlistStorage]
    rw [if_pos h]
  · intro h1 h2 h3
    simp only [qlistStorage]
    rw [if_neg (not_or.mpr ⟨by omega, by simp [h2]⟩), if_pos h3]
  · intro h1 h2
    simp only [qlistStorage]
    rw [if_pos (Or.inl h2)]
  · intro h1 h2 h3 h4
    simp only [qlistStorage]
    rw [if_neg (not_or.mpr ⟨by omega, by simp [h2]⟩),
        if_neg (not_or.mpr ⟨by simp [h3], by simp [h4]⟩)]
    refine ⟨_, rfl, ?_⟩
    refine ⟨("Could not determine whether QList stores ").toList,
      (" directly or as a pointer: to fix " ++
       "this, add it to one of the variables in the " ++
       "qt5printers.typeinfo module").toList, ?_⟩
    simp [String.toList]

/-- C1 witness: the theorem applied at concrete element types — a movable type
wider than a pointer (`QRect`, indirect), a movable pointer-sized type
(`QString`, inline), a user-registered static type (indirect), and an
unregistered composite type (explicit error naming the type). -/
theorem qlist_storage_mode_witness :
    qlistStorage defaultRegistry ⟨.struct, "QRect", 16, ""⟩ 8 = .ok true ∧
    qlistStorage defaultRegistry ⟨.struct, "QString", 8, ""⟩ 8 = .ok false ∧
    qlistStorage { defaultRegistry with static_types := ["MyType"] }
      ⟨.struct, "MyType", 8, ""⟩ 8 = .ok true ∧
    ∃ msg, qlistStorage defaultRegistry ⟨.struct, "Mystery", 8, ""⟩ 8 = .error msg ∧
      List.IsInfix ("Mystery").toList msg.toList :=
  ⟨(qlist_storage_mode defaultRegistry ⟨.struct, "QRect", 16, ""⟩ 8).2.2.1
      (by decide) (by decide),
   (qlist_storage_mode defaultRegistry ⟨.struct, "QString", 8, ""⟩ 8).2.1
      (by decide) (by decide) (Or.inl (by decide)),
   (qlist_storage_mode { defaultRegistry with static_types := ["MyType"] }
      ⟨.struct, "MyType", 8, ""⟩ 8).1 (Or.inr (by decide)),
   (qlist_storage_mode defaultRegistry ⟨.struct, "Mystery", 8, ""⟩ 8).2.2.2
      (by decide) (by decide) (by decide) (by decide)⟩

/-- Unrolling `llIterRun`: starting at counter `i` with `n` steps left, the
iterator yields exactly `n` labelled elements walked along `nxt`. -/
theorem llIterRun_eq {α β : Type} (nxt : α → α) (val : α → β) :
    ∀ (n : Nat) (i : Int) (cur : α),
      llIterRun nxt val cur i (i + 1 + n) =
        (List.range n).map
          (fun (j : Nat) => (toString (i + 1 + (j : Int)), val (nxt^[j + 1] cur))) := by
  intro n
  induction n with
  | zero =>
    intro i cur
    rw [llIterRun]
    simp
  | succ m ih =>
    intro i cur
    rw [llIterRun, dif_neg (by push_cast; omega)]
    have hsz : i + 1 + ((m + 1 : Nat) : Int) = (i + 1) + 1 + (m : Int) := by
      push_cast; ring
    rw [hsz, ih]
    rw [List.range_succ_eq_map, List.map_cons, List.map_map]
    refine congrArg₂ _ ?_ ?_
    · simp
    · refine List.map_congr_left ?_
      intro j hj
      simp only [Function.comp_apply]
      refine congrArg₂ _ (congrArg _ (by push_cast; ring)) ?_
      simp [Function.iterate_succ_apply]

/-- C4: for every QLinkedList whose header reports element count `n ≥ 0`,
the decoder yields exactly `n` labelled `(str(i), element)` pairs obtained by
advancing the next-reference exactly once per yielded element (element `j`
is `j + 1` next-steps from the sentinel), and terminates — regardless of the
actual shape of the chain (`nxt` is an arbitrary total function, so this
covers truncated and cyclic chains alike). -/
theorem qlinkedlist_yields_reported_count {α β : Type} (nxt : α → α)
    (val : α → β) (e : α) (n : Int) (hn : 0 ≤ n) :
    (qlinkedlist_children nxt val e n).length = n.toNat ∧
    qlinkedlist_children nxt val e n =
      (List.range n.toNat).map
        (fun (j : Nat) => (toString ((j : Int)), val (nxt^[j + 1] e))) := by
  obtain ⟨m, rfl⟩ : ∃ m : Nat, n = (m : Int) := ⟨n.toNat, by omega⟩
  by_cases h0 : (m : Int) = 0
  · rw [qlinkedlist_children, if_pos h0]
    have : m = 0 := by omega
    subst this
    simp
  · rw [qlinkedlist_children, if_neg h0]
    have hrun := llIterRun_eq nxt val m (-1) e
    rw [show (-1 : Int) + 1 + (m : Int) = (m : Int) from by ring] at hrun
    simp only [show ∀ j : Nat, (-1 : Int) + 1 + (j : Int) = (j : Int) from
      fun j => by ring] at hrun
    rw [hrun]
    simp

/-- C4 witness: the theorem applied to a concrete chain (successor function on
`Nat`, sentinel `0`) with reported count `2`: exactly two pairs are yielded. -/
theorem qlinkedlist_yields_reported_count_witness :
    (qlinkedlist_children Nat.succ (fun x => x) 0 2).length = (2 : Int).toNat ∧
    qlinkedlist_children Nat.succ (fun x => x) 0 2 =
      (List.range (2 : Int).toNat).map
        (fun (j : Nat) => (toString ((j : Int)), Nat.succ^[j + 1] 0)) :=
  qlinkedlist_yields_reported_count Nat.succ (fun x => x) 0 2 (by decide)

/-- C6 counterexample: the claim is false for the string-like copy-on-write
buffer decoder it names: decoding a QString of element count zero returns the
empty string `""`, not the literal sentinel `<empty>` (the source's
`QStringPrinter.to_string` has no empty-size check). -/
theorem qstring_empty_not_sentinel :
    qstring_to_string [] 0 = "" ∧ qstring_to_string [] 0 ≠ "<empty>" := by
  decide

/-- C6 (amended): the contiguous-array decoder (QVector) and the indexed
ring/deque decoder (QList) produce the literal terminal text `<empty>` when
the element count is zero (`begin = end` for QList); the string-like
copy-on-write buffer decoder (QString) instead returns the decoded — hence
empty — string for count zero. -/
theorem empty_decode_sentinels :
    qvector_to_string 0 = some "<empty>" ∧
    (∀ begin_ : Int, qlist_to_string begin_ begin_ = some "<empty>") ∧
    (∀ bytes : List Nat, qstring_to_string bytes 0 = "") := by
  refine ⟨rfl, fun b => by simp [qlist_to_string], fun bytes => rfl⟩

/-- Items at even positions of the hash iterator output are always keys:
every item the set decoder keeps is a `('key<i>', key)` pair. -/
theorem islice2_hash_keys {α β : Type} :
    ∀ (i : Int) (bs : List (List (α × β))),
      ∀ p ∈ islice2 (qhashIterYields i bs), ∃ s k, p = (s, Sum.inl k) := by
  intro i bs
  induction i, bs using qhashIterYields.induct with
  | case1 i =>
    intro p hp
    simp [qhashIterYields, islice2] at hp
  | case2 i bs ih =>
    intro p hp
    simp only [qhashIterYields] at hp
    exact ih p hp
  | case3 i k v rest bs ih =>
    intro p hp
    simp only [qhashIterYields, islice2] at hp
    rcases List.mem_cons.mp hp with h | h
    · exact ⟨_, _, h⟩
    · exact ih p h

/-- Shifting the enumeration start by 2 does not change which positions are
even. -/
theorem filterMap_enumFrom_even_shift {γ : Type} :
    ∀ (l : List γ) (n : Nat),
      (List.enumFrom (n + 2) l).filterMap
          (fun p => if p.1 % 2 = 0 then some p.2 else none) =
        (List.enumFrom n l).filterMap
          (fun p => if p.1 % 2 = 0 then some p.2 else none) := by
  intro l
  induction l with
  | nil => intro n; simp
  | cons x t ih =>
    intro n
    have h2 : (n + 2) % 2 = n % 2 := by omega
    have e : n + 2 + 1 = (n + 1) + 2 := by omega
    simp only [List.enumFrom, List.filterMap_cons, h2, e, ih (n + 1)]

/-- Taking every other item of a list is taking its even positions. -/
theorem islice2_eq_evenIdx {γ : Type} : ∀ l : List γ, islice2 l = evenIdx l := by
  intro l
  induction l using islice2.induct with
  | case1 => simp [islice2, evenIdx]
  | case2 x => simp [islice2, evenIdx, List.enum, List.enumFrom]
  | case3 x y rest ih =>
    simp only [islice2, ih, evenIdx, List.enum, List.enumFrom,
      List.filterMap_cons]
    norm_num
    exact (filterMap_enumFrom_even_shift rest 0).symm ▸ rfl

/-- C8: the sequence of children yielded by the QSet decoder equals exactly
the subsequence of items at even positions (every key) of the sequence the
backing QHash decoder yields for the same state, in the same order, and every
kept item is a key entry (no placeholder values). -/
theorem qset_children_are_even_positions {α β : Type}
    (buckets : List (List (α × β))) (size : Int) :
    qset_children buckets size = evenIdx (qhash_children buckets size) ∧
    ∀ p ∈ qset_children buckets size, ∃ s k, p = (s, Sum.inl k) := by
  constructor
  · unfold qset_children
    exact islice2_eq_evenIdx _
  · intro p hp
    unfold qset_children qhash_children at hp
    by_cases h : size = 0
    · simp [h, islice2] at hp
    · rw [if_neg h] at hp
      exact islice2_hash_keys 0 buckets p hp

/-- C7: QVariant decoding: type-tag 0 yields the explicit marker
`<invalid type>` (never an empty string); and for every tag with no entry in
the built-in tag table — in particular every custom tag `≥ 1024` — no
structural decoding is attempted and the raw untyped payload is returned. -/
theorem qvariant_tag_dispatch (reg : TypeRegistry)
    (resolve : String → Option GdbType) (ptrSize dataSize : Nat) :
    (qvariant_to_string reg resolve ptrSize dataSize 0 = .text "<invalid type>" ∧
      qvariant_to_string reg resolve ptrSize dataSize 0 ≠ .text "") ∧
    (∀ typ : Nat, typ ≠ 0 →
      meta_type_names.find? (fun p => p.1 == typ) = none →
      qvariant_to_string reg resolve ptrSize dataSize typ = .rawData) ∧
    (∀ typ : Nat, meta_type_user ≤ typ →
      qvariant_to_string reg resolve ptrSize dataSize typ = .rawData) := by
  have hpart2 : ∀ typ : Nat, typ ≠ 0 →
      meta_type_names.find? (fun p => p.1 == typ) = none →
      qvariant_to_string reg resolve ptrSize dataSize typ = .rawData := by
    intro typ h0 hf
    unfold qvariant_to_string
    rw [if_neg (by simpa [meta_type_unknown] using h0), hf]
  refine ⟨⟨by simp [qvariant_to_string, meta_type_unknown],
    by simp [qvariant_to_string, meta_type_unknown]⟩, hpart2, ?_⟩
  intro typ h
  have keybound : ∀ p ∈ meta_type_names, p.1 ≤ 121 := by decide
  have hf : meta_type_names.find? (fun p => p.1 == typ) = none := by
    rw [List.find?_eq_none]
    intro p hp
    have := keybound p hp
    simp only [beq_iff_eq]
    unfold meta_type_user at h
    omega
  exact hpart2 typ (by unfold meta_type_user at h; omega) hf

/-- C7 witness: the theorem applied at a tag absent from the table (`999`)
and at a custom tag (`2048`), with a resolver that knows no types. -/
theorem qvariant_tag_dispatch_witness :
    qvariant_to_string defaultRegistry (fun _ => none) 8 8 999 = .rawData ∧
    qvariant_to_string defaultRegistry (fun _ => none) 8 8 2048 = .rawData :=
  ⟨(qvariant_tag_dispatch defaultRegistry (fun _ => none) 8 8).2.1 999
      (by decide) (by decide),
   (qvariant_tag_dispatch defaultRegistry (fun _ => none) 8 8).2.2 2048
      (by decide)⟩

/-- C9 counterexample: the claim as stated is false: when the local-file fast
path applies (`flags` bit 0x01 set, no query, no fragment) the output is the
bare path even though the password-present bit 0x04 is set, so the output
does not contain the `:<omitted>` redaction marker. -/
theorem qurl_password_marker_counterexample :
    qurl_to_string false (-1) "" "" "secret" "" "/tmp/x" "" "" 0x04 0x01 =
      "/tmp/x" ∧
    ¬ List.IsInfix (":<omitted>").toList
      (qurl_to_string false (-1) "" "" "secret" "" "/tmp/x" "" "" 0x04 0x01).toList := by
  constructor
  · rfl
  · decide

/-- C9 (amended): the rendered QUrl output is independent of the password
field — any two states differing only in the password bytes render to the
identical string, so password bytes never appear in the output — and whenever
the password-present bit 0x04 is set, the `d` pointer is non-null, and the
local-file fast path does not apply, the output contains the literal
redaction marker `:<omitted>` in place of the password. -/
theorem qurl_password_redaction (dNull : Bool) (port : Int)
    (scheme userName pw1 pw2 host path query fragment : String)
    (sections flags : Nat) :
    (qurl_to_string dNull port scheme userName pw1 host path query fragment
        sections flags =
      qurl_to_string dNull port scheme userName pw2 host path query fragment
        sections flags) ∧
    (dNull = false →
      ¬(flags.land 0x01 ≠ 0 ∧ sections.land 0x40 = 0 ∧ sections.land 0x80 = 0) →
      sections.land 0x04 ≠ 0 →
      List.IsInfix (":<omitted>").toList
        (qurl_to_string dNull port scheme userName pw1 host path query fragment
          sections flags).toList) := by
  constructor
  · rfl
  · intro h1 h2 h3
    subst h1
    unfold qurl_to_string
    rw [if_neg (by simp), if_neg h2, if_pos (Or.inr h3), if_pos h3]
    have hm : List.IsInfix (":<omitted>").toList
        (userName ++ ":<omitted>" ++ "@").toList :=
      ⟨userName.toList, ("@").toList, by simp [String.toList]⟩
    refine hm.trans ?_
    · generalize (if sections.land 0x01 ≠ 0 then scheme ++ ":" else "") = r1
      generalize (if sections.land (0x02 ||| 0x04 ||| 0x08 ||| 0x10) ≠ 0 ∨
        flags.land 0x01 ≠ 0 then "//" else "") = r2
      generalize (if sections.land 0x08 ≠ 0 then host else "") = r4
      generalize (if port ≠ -1 then ":" ++ toString port else "") = r5
      generalize (if sections.land 0x40 ≠ 0 then "?" ++ query else "") = r7
      generalize (if sections.land 0x80 ≠ 0 then "#" ++ fragment else "") = r8
      exact ⟨(r1 ++ r2).toList, (r4 ++ r5 ++ path ++ r7 ++ r8).toList,
        by simp [String.toList, List.append_assoc]⟩

/-- C9 witness: the amended theorem applied at a concrete non-local-file URL
state with the password bit set: two different passwords render identically
and the output carries the redaction marker. -/
theorem qurl_password_redaction_witness :
    qurl_to_string false (-1) "http" "alice" "secret" "example.com" "/p" "" ""
        4 0 =
      qurl_to_string false (-1) "http" "alice" "hunter2" "example.com" "/p" ""
        "" 4 0 ∧
    List.IsInfix (":<omitted>").toList
      (qurl_to_string false (-1) "http" "alice" "secret" "example.com" "/p" ""
        "" 4 0).toList :=
  ⟨(qurl_password_redaction false (-1) "http" "alice" "secret" "hunter2"
      "example.com" "/p" "" "" 4 0).1,
   (qurl_password_redaction false (-1) "http" "alice" "secret" "hunter2"
      "example.com" "/p" "" "" 4 0).2 rfl (by decide) (by decide)⟩

/-- `descendLeft` reaches a node with no left child, and the in-order nodes
reachable from the resulting position are exactly those of the subtree it
started from followed by the remainder of the starting path. -/
theorem descendLeft_spec {α β : Type} :
    ∀ (l : QMapTree α β) (k : α) (v : β) (r : QMapTree α β)
      (ctx : List (MapFrame α β)),
      ∃ l2 k2 v2 r2 ctx2,
        descendLeft (.node l k v r) ctx = (.node l2 k2 v2 r2, ctx2) ∧
        (k2, v2) :: (inorder r2 ++ ctxRem ctx2) =
          inorder (.node l k v r) ++ ctxRem ctx := by
  intro l
  induction l with
  | leaf =>
    intro k v r ctx
    exact ⟨.leaf, k, v, r, ctx, rfl, by simp [inorder]⟩
  | node a k2 v2 b iha ihb =>
    intro k v r ctx
    obtain ⟨l3, k3, v3, r3, ctx3, heq, hrem⟩ := iha k2 v2 b (.L k v r :: ctx)
    refine ⟨l3, k3, v3, r3, ctx3, ?_, ?_⟩
    · rw [descendLeft]
      exact heq
    · rw [hrem]
      simp [inorder, ctxRem]

/-- `popUp` pops `R` frames, stops at an `L` frame (the next in-order node)
and ends at the header; the pending in-order nodes match the path
remainder. -/
theorem popUp_spec {α β : Type} :
    ∀ (ctx : List (MapFrame α β)) (last : QMapTree α β),
      (popUp ctx last = none → ctxRem ctx = []) ∧
      (∀ cur2 ctx2, popUp ctx last = some (cur2, ctx2) →
        ∃ l2 k2 v2 r2, cur2 = .node l2 k2 v2 r2 ∧
          (k2, v2) :: (inorder r2 ++ ctxRem ctx2) = ctxRem ctx) := by
  intro ctx
  induction ctx with
  | nil =>
    intro last
    exact ⟨fun _ => rfl, fun c2 x2 h => by simp [popUp] at h⟩
  | cons f c ih =>
    intro last
    cases f with
    | H => exact ⟨fun _ => rfl, fun c2 x2 h => by simp [popUp] at h⟩
    | R l k v =>
      refine ⟨?_, ?_⟩
      · intro h
        rw [popUp] at h
        exact (ih (.node l k v last)).1 h
      · intro c2 x2 h
        rw [popUp] at h
        exact (ih (.node l k v last)).2 c2 x2 h
    | L k v r =>
      refine ⟨?_, ?_⟩
      · intro h
        simp [popUp] at h
      · intro c2 x2 h
        rw [popUp] at h
        obtain ⟨h1, h2⟩ := Prod.mk.injEq .. ▸ Option.some.injEq .. ▸ h
        exact ⟨last, k, v, r, by rw [← h1], by rw [← h2]; rfl⟩

/-- One `moveToNextNode` step: it fails exactly on an empty pending list and
otherwise advances to the head of the pending list. -/
theorem moveToNextNode_spec {α β : Type} (root : QMapTree α β) :
    ∀ (cur? : Option (QMapTree α β)) (ctx : List (MapFrame α β)),
      (moveToNextNode root (cur?, ctx) = none → pending root (cur?, ctx) = []) ∧
      (∀ cur2 ctx2, moveToNextNode root (cur?, ctx) = some (cur2, ctx2) →
        ∃ l2 k2 v2 r2, cur2 = .node l2 k2 v2 r2 ∧
          pending root (cur?, ctx) =
            (k2, v2) :: pending root (some cur2, ctx2)) := by
  intro cur? ctx
  match cur? with
  | none =>
    match hroot : root with
    | .leaf =>
      exact ⟨fun _ => by simp [pending, inorder], fun c2 x2 h => by
        simp [moveToNextNode] at h⟩
    | .node l k v r =>
      refine ⟨fun h => by simp [moveToNextNode] at h, ?_⟩
      intro cur2 ctx2 h
      obtain ⟨l2, k2, v2, r2, ctx3, heq, hrem⟩ := descendLeft_spec l k v r [.H]
      rw [moveToNextNode, heq] at h
      obtain ⟨h1, h2⟩ := Prod.mk.injEq .. ▸ Option.some.injEq .. ▸ h
      refine ⟨l2, k2, v2, r2, h1.symm, ?_⟩
      rw [← h1, ← h2]
      simp only [pending]
      rw [hrem]
      simp [ctxRem]
  | some .leaf =>
    exact ⟨fun _ => rfl, fun c2 x2 h => by simp [moveToNextNode] at h⟩
  | some (.node l k v .leaf) =>
    refine ⟨?_, ?_⟩
    · intro h
      rw [moveToNextNode] at h
      have := (popUp_spec ctx (.node l k v .leaf)).1 h
      simp [pending, inorder, this]
    · intro cur2 ctx2 h
      rw [moveToNextNode] at h
      obtain ⟨l2, k2, v2, r2, hc, hrem⟩ :=
        (popUp_spec ctx (.node l k v .leaf)).2 cur2 ctx2 h
      refine ⟨l2, k2, v2, r2, hc, ?_⟩
      rw [hc]
      simp only [pending, inorder]
      rw [hrem]
      simp
  | some (.node l k v (.node rl rk rv rr)) =>
    refine ⟨fun h => by simp [moveToNextNode] at h, ?_⟩
    intro cur2 ctx2 h
    obtain ⟨l2, k2, v2, r2, ctx3, heq, hrem⟩ :=
      descendLeft_spec rl rk rv rr (.R l k v :: ctx)
    rw [moveToNextNode, heq] at h
    obtain ⟨h1, h2⟩ := Prod.mk.injEq .. ▸ Option.some.injEq .. ▸ h
    refine ⟨l2, k2, v2, r2, h1.symm, ?_⟩
    rw [← h1, ← h2]
    simp only [pending]
    rw [hrem]
    simp [ctxRem]

/-- Running the iterator from any key-expecting state with enough fuel yields
exactly the pending nodes in strict key/value alternation with consecutive
labels. -/
theorem qmapRun_spec {α β : Type} (root : QMapTree α β) :
    ∀ (fuel : Nat) (s : QMapIterState α β),
      s.next_is_key = true →
      2 * (pending root (s.cur, s.ctx)).length ≤ fuel →
      qmapRun root fuel s = labelKV (s.i + 1) (pending root (s.cur, s.ctx)) := by
  intro fuel
  induction fuel using Nat.strong_induction_on with
  | _ fuel ih =>
    intro s hkey hfuel
    rcases hmv : moveToNextNode root (s.cur, s.ctx) with _ | ⟨cur2, ctx2⟩
    · have hp : pending root (s.cur, s.ctx) = [] :=
        (moveToNextNode_spec root s.cur s.ctx).1 hmv
      rw [hp, labelKV]
      match fuel with
      | 0 => rfl
      | f + 1 =>
        rw [qmapRun]
        simp only [qmapNext, hkey, if_true, hmv]
    · obtain ⟨l2, k2, v2, r2, hc, hpend⟩ :=
        (moveToNextNode_spec root s.cur s.ctx).2 cur2 ctx2 hmv
      subst hc
      have hlen : 2 ≤ fuel := by
        rw [hpend] at hfuel
        simp only [List.length_cons] at hfuel
        omega
      obtain ⟨f, rfl⟩ : ∃ f, fuel = f + 2 := ⟨fuel - 2, by omega⟩
      rw [qmapRun]
      simp only [qmapNext, hkey, if_true, hmv]
      rw [qmapRun]
      simp only [qmapNext]
      simp only [if_neg (by simp : ¬ (false = true))]
      have hb : 2 * (pending root (some (QMapTree.node l2 k2 v2 r2), ctx2)).length ≤ f := by
        rw [hpend] at hfuel
        simp only [List.length_cons] at hfuel
        omega
      have hrest := ih f (by omega)
        (⟨some (.node l2 k2 v2 r2), ctx2, true, some (k2, v2), s.i + 1⟩ :
          QMapIterState α β) rfl hb
      simp only at hrest
      rw [hrest, hpend, labelKV]

/-- C3: for every well-formed QMap tree (sentinel root whose left subtree
holds the nodes), the iterator — using only its explicit ancestor stack —
yields the nodes in strict binary-search-tree in-order as a strict
`key0, value0, key1, value1, …` alternation (each key immediately followed
by the value of the same node), and the traversal is complete (it ends when
the ancestor stack is exhausted at the root): with fuel at least twice the
node count the output is exactly the labelled in-order list. -/
theorem qmap_iter_inorder {α β : Type} (t : QMapTree α β) (fuel : Nat)
    (hfuel : 2 * (inorder t).length ≤ fuel) :
    qmapRun t fuel qmapInitState = labelKV 0 (inorder t) := by
  have h := qmapRun_spec t fuel qmapInitState rfl (by simpa [pending] using hfuel)
  simpa [pending, qmapInitState] using h

/-- C3 witness: the theorem applied to a concrete three-node tree with
exactly the minimal fuel. -/
theorem qmap_iter_inorder_witness :
    qmapRun (QMapTree.node (.node .leaf 1 10 .leaf) 2 20 (.node .leaf 3 30 .leaf))
      6 qmapInitState =
    labelKV 0 (inorder
      (QMapTree.node (.node .leaf 1 10 .leaf) 2 20 (.node .leaf 3 30 .leaf))) :=
  qmap_iter_inorder
    (QMapTree.node (.node .leaf 1 10 .leaf) 2 20 (.node .leaf 3 30 .leaf))
    6 (by decide)

/-- C5: QTime decoding: any `msecs` outside `[0, 86400000]` renders the
`<invalid>` sentinel; every `msecs` in `[0, 86400000)` renders
`HH:MM:SS.mmm` with `HH = msecs / 3600000 ∈ [0, 23]`,
`MM = msecs / 60000 % 60`, `SS = msecs / 1000 % 60`, `mmm = msecs % 1000`,
zero-padded; `3661000` decodes to `01:01:01.000`; and `86400000` is accepted
as valid (not rendered as the invalid sentinel). -/
theorem qtime_decoding_correct :
    (∀ ms : Int, ms < 0 ∨ ms > 86400000 → qtime_to_string ms = "<invalid>") ∧
    (∀ ms : Int, 0 ≤ ms → ms < 86400000 →
      qtime_to_string ms =
        pad0 2 (ms / 3600000) ++ ":" ++ pad0 2 (ms / 60000 % 60) ++ ":" ++
          pad0 2 (ms / 1000 % 60) ++ "." ++ pad0 3 (ms % 1000) ∧
      0 ≤ ms / 3600000 ∧ ms / 3600000 ≤ 23) ∧
    qtime_to_string 3661000 = "01:01:01.000" ∧
    qtime_to_string 86400000 ≠ "<invalid>" := by
  refine ⟨?_, ?_, by decide, by decide⟩
  · intro ms h
    have hv : _ms_is_valid ms = false := by
      unfold _ms_is_valid; simp only [decide_eq_false_iff_not]; omega
    unfold qtime_to_string
    simp [hv]
  · intro ms h0 h1
    have hv : _ms_is_valid ms = true := by
      unfold _ms_is_valid; simp only [decide_eq_true_eq]; omega
    unfold qtime_to_string
    simp only [hv, if_true]
    simp only [_format_time_ms]
    rw [Int.fdiv_eq_ediv _ (by decide), Int.fdiv_eq_ediv _ (by decide),
        Int.fdiv_eq_ediv _ (by decide), Int.fmod_eq_emod _ (by decide),
        Int.fmod_eq_emod _ (by decide), Int.fmod_eq_emod _ (by decide),
        Int.fmod_eq_emod _ (by decide)]
    have e1 : ms / 1000 / 60 / 60 % 24 = ms / 3600000 := by omega
    have e2 : ms / 1000 / 60 % 60 = ms / 60000 % 60 := by omega
    rw [e1, e2]
    refine ⟨rfl, by omega, by omega⟩

/-- C5 witness: the theorem applied at `ms = -1` and `ms = 3661000`. -/
theorem qtime_decoding_correct_witness :
    qtime_to_string (-1) = "<invalid>" ∧
    qtime_to_string 3661000 =
      pad0 2 ((3661000 : Int) / 3600000) ++ ":" ++
        pad0 2 ((3661000 : Int) / 60000 % 60) ++ ":" ++
        pad0 2 ((3661000 : Int) / 1000 % 60) ++ "." ++
        pad0 3 ((3661000 : Int) % 1000) :=
  ⟨qtime_decoding_correct.1 (-1) (Or.inl (by decide)),
   (qtime_decoding_correct.2.1 3661000 (by decide) (by decide)).1⟩

/-- C10: at the exact upper boundary `msecs = 86400000` (accepted as valid),
QTime decoding returns `00:00:00.000` — the hour is reduced modulo 24 — not
`24:00:00.000` and not the `<invalid>` sentinel. -/
theorem qtime_boundary_renders_midnight :
    qtime_to_string 86400000 = "00:00:00.000" ∧
    qtime_to_string 86400000 ≠ "24:00:00.000" ∧
    qtime_to_string 86400000 ≠ "<invalid>" := by decide

example :
    qmapRun (QMapTree.node (.node .leaf 1 10 .leaf) 2 20 (.node .leaf 3 30 .leaf))
      7 qmapInitState =
    labelKV 0 (inorder
      (QMapTree.node (.node .leaf 1 10 .leaf) 2 20 (.node .leaf 3 30 .leaf))) := by
  decide

example :
    qmapRun (QMapTree.node
        (.node (.node .leaf 0 5 .leaf) 1 10 .leaf) 2 20
        (.node .leaf 3 30 (.node .leaf 4 40 .leaf)))
      12 qmapInitState =
    labelKV 0 [(0, 5), (1, 10), (2, 20), (3, 30), (4, 40)] := by
  decide

example : qtime_to_string 3661000 = "01:01:01.000" := by decide
example : qtime_to_string 86400000 = "00:00:00.000" := by decide
example : qdate_to_string 2440588 = "1970-01-01" := by decide
example : _format_jd_ymd (gregorianToJd 2024 2 29) = (2024, 2, 29) := by decide
example : _format_jd_ymd (gregorianToJd (-44) 3 15) = (-44, 3, 15) := by decide

end Qt5Printers
